import Mathlib

/-!
Verification of the object-graph serialization and path-query engine of the
Speckle MCP server (`speckle_server.py`) and its HTTP mirror (`http_wrapper.py`).

The Python value universe is embedded as the inductive type `PyVal`:
scalars (`None`, `bool`, `int`, `str`), lists, dicts (association lists in
insertion order, keys unique as in Python dicts), structured objects
(`vobj attrs` models an object whose instance attribute store `__dict__`
is `attrs`; attribute lookup is modelled through that store), and
`vother s` for any other value whose `str()` form is `s`.
-/

inductive PyVal : Type where
  | vnone : PyVal
  | vbool : Bool → PyVal
  | vint : Int → PyVal
  | vstr : String → PyVal
  | vlist : List PyVal → PyVal
  | vdict : List (String × PyVal) → PyVal
  | vobj : List (String × PyVal) → PyVal
  | vother : String → PyVal

/-- The decimal-digit test: Python `part.isdigit()` restricted to the
decimal class — non-empty and all characters ASCII decimal digits, exactly
the strings on which `int(part)` also succeeds in this character model.
The full `isdigit`, which additionally accepts digit-only characters on
which `int()` raises `ValueError`, is `pyIsDigitFull` below. -/
def pyIsDigit (s : String) : Bool :=
  !s.data.isEmpty && s.data.all Char.isDigit

/-- Python `int(part)` on an all-digit string: decimal value. -/
def pyStrToNat (s : String) : Nat :=
  s.data.foldl (fun n c => 10 * n + (c.toNat - 48)) 0

/-- `isinstance(current, dict) and part in current` followed by `current[part]`. -/
def dictLookup : PyVal → String → Option PyVal
  | .vdict l, k => l.lookup k
  | _, _ => none

/-- `hasattr(current, part)` / `getattr(current, part)` through the instance
attribute store (`__dict__`). -/
def pyGetattr : PyVal → String → Option PyVal
  | .vobj attrs, k => attrs.lookup k
  | _, _ => none

/-- `isinstance(current, list)`. -/
def isVList : PyVal → Bool
  | .vlist _ => true
  | _ => false

/-- The element list of a Python list value (empty for non-lists; only used
under an `isVList` guard). -/
def pyListElems : PyVal → List PyVal
  | .vlist xs => xs
  | _ => []

/-- The non-index lookup chain of `get_property_by_path` (branches in source
order): dictionary key, object attribute, instance `__dict__` entry (same
store in this model), then the `@`-prefixed dynamic attribute. -/
def gpp_lookup (current : PyVal) (part : String) : Option PyVal :=
  match dictLookup current part with
  | some v => some v
  | none =>
    match pyGetattr current part with
    | some v => some v
    | none =>
      match pyGetattr current part with
      | some v => some v
      | none => pyGetattr current ("@" ++ part)

/-- The loop of `get_property_by_path` on its returning runs: walks the
split path segments, accumulating `path_so_far` exactly as the source does
(`path_so_far += ("" if i == 0 else ".") + part`).  The exception channel
(`int(part)` raising `ValueError` on a digit-only segment over a sequence)
is modelled by `gpp_go_exc` below, which agrees with this function on every
run that returns (`gpp_go_exc_ok_eq`). -/
def gpp_go : PyVal → List String → String → Bool → Option PyVal × Option String
  | current, [], _, _ => (some current, none)
  | current, part :: rest, psf, first =>
    let psf' := psf ++ (if first then "" else ".") ++ part
    if pyIsDigit part && isVList current then
      let xs := pyListElems current
      let index := pyStrToNat part
      if index < xs.length then
        gpp_go (xs.getD index .vnone) rest psf' false
      else
        (none, some ("Index " ++ toString index ++ " out of range at path '" ++ psf' ++ "'"))
    else
      match gpp_lookup current part with
      | some v => gpp_go v rest psf' false
      | none =>
        (none, some ("Property '" ++ part ++ "' not found at path '" ++ psf' ++ "'"))

/-- Python `path.split('.')` on the character list: single-character
separator split, `"" ↦ [""]`, separators at the ends produce empty segments. -/
def splitDotChar : List Char → List (List Char)
  | [] => [[]]
  | c :: r =>
    if c = '.' then [] :: splitDotChar r
    else
      match splitDotChar r with
      | [] => [[c]]
      | seg :: rest => (c :: seg) :: rest

/-- Python `path.split('.')`. -/
def pySplitDot (s : String) : List String :=
  (splitDotChar s.data).map String.mk

/-- `get_property_by_path(obj, path)` from `speckle_server.py`. -/
def get_property_by_path (obj : PyVal) (path : String) : Option PyVal × Option String :=
  gpp_go obj (pySplitDot path) "" true

/-- Characters with Unicode `Numeric_Type=Digit` that are not decimal
digits, modelled through their common members: superscript one, two, three
(U+00B9, U+00B2, U+00B3), superscript zero through nine (U+2070 to U+2079)
and subscript zero through nine (U+2080 to U+2089).  Python's `str.isdigit`
accepts them while `int()` raises `ValueError` on them. -/
def pyDigitOnlyChar (c : Char) : Bool :=
  c = '\u00b9' || c = '\u00b2' || c = '\u00b3'
    || (0x2070 ≤ c.toNat && c.toNat ≤ 0x2079)
    || (0x2080 ≤ c.toNat && c.toNat ≤ 0x2089)

/-- Python `part.isdigit()` in full: non-empty and every character either a
decimal digit or a digit-only character. -/
def pyIsDigitFull (s : String) : Bool :=
  !s.data.isEmpty && s.data.all (fun c => c.isDigit || pyDigitOnlyChar c)

/-- `int(part)` succeeds: non-empty and every character in the decimal
class (on the characters of this model, exactly the ASCII digits). -/
def pyIntParses (s : String) : Bool :=
  !s.data.isEmpty && s.data.all Char.isDigit

/-- The loop of `get_property_by_path` with Python's exception channel:
`part.isdigit()` accepts digit-only segments (such as `"²"`) on which
`int(part)` raises `ValueError`, and that exception propagates out of the
function.  Wherever no exception occurs this agrees with `gpp_go`
(`gpp_go_exc_ok_eq`). -/
def gpp_go_exc :
    PyVal → List String → String → Bool → Except String (Option PyVal × Option String)
  | current, [], _, _ => .ok (some current, none)
  | current, part :: rest, psf, first =>
    let psf' := psf ++ (if first then "" else ".") ++ part
    if pyIsDigitFull part && isVList current then
      if pyIntParses part then
        let xs := pyListElems current
        let index := pyStrToNat part
        if index < xs.length then
          gpp_go_exc (xs.getD index .vnone) rest psf' false
        else
          .ok (none, some ("Index " ++ toString index ++ " out of range at path '" ++ psf' ++ "'"))
      else
        .error ("invalid literal for int() with base 10: '" ++ part ++ "'")
    else
      match gpp_lookup current part with
      | some v => gpp_go_exc v rest psf' false
      | none =>
        .ok (none, some ("Property '" ++ part ++ "' not found at path '" ++ psf' ++ "'"))

/-- `get_property_by_path(obj, path)` with the exception channel. -/
def get_property_by_path_exc (obj : PyVal) (path : String) :
    Except String (Option PyVal × Option String) :=
  gpp_go_exc obj (pySplitDot path) "" true

/-- Python `key.startswith("_")`. -/
def startsWithUnderscore (s : String) : Bool :=
  match s.data with
  | [] => false
  | c :: _ => c = '_'

/-- Python `getattr(speckle_object, "id", None)`: the `id` entry of the
instance attribute store, `None` when absent or when the value has no
attribute store. -/
def pyGetattrId (v : PyVal) : PyVal :=
  match v with
  | .vobj attrs => (attrs.lookup "id").getD .vnone
  | _ => .vnone

/-- The Reference Stub `{"id": getattr(speckle_object, "id", None), "_type": "reference"}`. -/
def refStub (v : PyVal) : PyVal :=
  .vdict [("id", pyGetattrId v), ("_type", .vstr "reference")]

/-- Python dict assignment `result[k] = v` on an insertion-ordered dict:
replaces the value in place when `k` is present, appends otherwise. -/
def dictSet : List (String × PyVal) → String → PyVal → List (String × PyVal)
  | [], k, v => [(k, v)]
  | (k', v') :: r, k, v => if k' = k then (k, v) :: r else (k', v') :: dictSet r k v

/-- The truncation sentinel text `f"...{n} more items"`. -/
def moreItemsNote (n : Nat) : String :=
  "..." ++ toString n ++ " more items"

/-- `'.'.join(parts)`: the inverse of `path.split('.')`. -/
def joinDot : List String → String
  | [] => ""
  | [s] => s
  | s :: s2 :: r => s ++ "." ++ joinDot (s2 :: r)

/-- `'.'.join` at the character-list level. -/
def joinDotChar : List (List Char) → List Char
  | [] => []
  | [c] => c
  | c :: c2 :: r => c ++ '.' :: joinDotChar (c2 :: r)

theorem sizeOf_list_take {α : Type} [SizeOf α] :
    ∀ (n : Nat) (xs : List α), sizeOf (xs.take n) ≤ sizeOf xs := by
  intro n xs
  induction xs generalizing n with
  | nil => cases n <;> simp
  | cons x r ih =>
    cases n with
    | zero => simp; omega
    | succ m =>
      simp only [List.take_succ_cons, List.cons.sizeOf_spec]
      have := ih m
      omega

mutual

/-- `SpeckleObjectConverter.convert_to_dict`.  The `to_dict` shortcut branch
of the source delegates to the external SDK and is modelled separately by
`process_dict_result` (the post-processing it applies to the shortcut's
dict); values of `PyVal` carry no `to_dict` method, so conversion here
proceeds with the custom logic: depth limiting first, then dispatch on the
value's kind. -/
def convert_to_dict (v : PyVal) (depth maxDepth : Nat) (includeChildren : Bool) : PyVal :=
  if maxDepth < depth ∧ includeChildren = false then
    refStub v
  else
    match v with
    | .vobj attrs => .vdict (conv_attrs attrs depth maxDepth includeChildren)
    | .vnone => v
    | .vbool _ => v
    | .vint _ => v
    | .vstr _ => v
    | .vlist xs => .vlist (process_list xs depth maxDepth includeChildren)
    | .vdict l => .vdict (process_dict l depth maxDepth includeChildren)
    | .vother s => .vstr s
termination_by (sizeOf v, 0)

/-- The attribute loop shared by `convert_to_dict` (object branch) and
`_process_dict_result`: skip keys starting with `_`, process each remaining
value with `_process_value` at the same depth. -/
def conv_attrs (l : List (String × PyVal)) (depth maxDepth : Nat) (includeChildren : Bool) :
    List (String × PyVal) :=
  match l with
  | [] => []
  | (k, v) :: r =>
    if startsWithUnderscore k then conv_attrs r depth maxDepth includeChildren
    else (k, process_value v depth maxDepth includeChildren) :: conv_attrs r depth maxDepth includeChildren
termination_by (sizeOf l, 2)

/-- `SpeckleObjectConverter._process_value`. -/
def process_value (v : PyVal) (depth maxDepth : Nat) (includeChildren : Bool) : PyVal :=
  match v with
  | .vnone => v
  | .vbool _ => v
  | .vint _ => v
  | .vstr _ => v
  | .vlist xs => .vlist (process_list xs depth maxDepth includeChildren)
  | .vdict l => .vdict (process_dict l depth maxDepth includeChildren)
  | .vobj attrs => convert_to_dict (.vobj attrs) (depth + 1) maxDepth includeChildren
  | .vother s => convert_to_dict (.vother s) (depth + 1) maxDepth includeChildren
termination_by (sizeOf v, 1)

/-- `SpeckleObjectConverter._process_list`. -/
def process_list (items : List PyVal) (depth maxDepth : Nat) (includeChildren : Bool) :
    List PyVal :=
  if items.isEmpty then []
  else
    let result := conv_each (items.take 5) depth maxDepth includeChildren
    if 5 < items.length then
      result ++ [.vdict [("_note", .vstr (moreItemsNote (items.length - 5)))]]
    else result
termination_by (sizeOf items, 3)
decreasing_by
  rw [Prod.lex_iff]
  have h := sizeOf_list_take 5 items
  omega

/-- The element comprehension of `_process_list`:
`[convert_to_dict(item, depth+1, ...) for item in items[:limit]]`. -/
def conv_each (xs : List PyVal) (depth maxDepth : Nat) (includeChildren : Bool) : List PyVal :=
  match xs with
  | [] => []
  | x :: r => convert_to_dict x (depth + 1) maxDepth includeChildren :: conv_each r depth maxDepth includeChildren
termination_by (sizeOf xs, 2)

/-- `SpeckleObjectConverter._process_dict`. -/
def process_dict (data : List (String × PyVal)) (depth maxDepth : Nat) (includeChildren : Bool) :
    List (String × PyVal) :=
  if data.isEmpty then []
  else
    let result := conv_entries (data.take 5) depth maxDepth includeChildren
    if 5 < data.length then
      dictSet result "_note" (.vstr (moreItemsNote (data.length - 5)))
    else result
termination_by (sizeOf data, 3)
decreasing_by
  rw [Prod.lex_iff]
  have h := sizeOf_list_take 5 data
  omega

/-- The entry comprehension of `_process_dict`:
`{k: convert_to_dict(v, depth+1, ...) for k, v in list(data.items())[:limit]}`. -/
def conv_entries (l : List (String × PyVal)) (depth maxDepth : Nat) (includeChildren : Bool) :
    List (String × PyVal) :=
  match l with
  | [] => []
  | (k, v) :: r => (k, convert_to_dict v (depth + 1) maxDepth includeChildren) :: conv_entries r depth maxDepth includeChildren
termination_by (sizeOf l, 2)

end

/-- `SpeckleObjectConverter._process_dict_result`: post-processing applied to
the dict produced by a successful `to_dict()` shortcut. -/
def process_dict_result (data : List (String × PyVal)) (depth maxDepth : Nat)
    (includeChildren : Bool) : PyVal :=
  if maxDepth < depth ∧ includeChildren = false then
    .vdict [("id", (data.lookup "id").getD .vnone), ("_type", .vstr "reference")]
  else
    .vdict (conv_attrs data depth maxDepth includeChildren)

/-- The keys of a serialized mapping (empty for non-mappings). -/
def keysOf : PyVal → List String
  | .vdict l => l.map Prod.fst
  | _ => []

/-- The value stored under a key of a serialized mapping. -/
def valAt : PyVal → String → Option PyVal
  | .vdict l, k => l.lookup k
  | _, _ => none

mutual

/-- `SpeckleObjectConverter.convert_value`: the Value Normalizer.  The
`to_dict` shortcut branch of the source delegates to the external SDK;
values of `PyVal` carry no `to_dict` method, so the custom branches apply:
attribute store, list, dict, scalar, string fallback — in source order. -/
def convert_value (v : PyVal) : PyVal :=
  match v with
  | .vobj attrs => .vdict (cv_attrs attrs)
  | .vlist xs => .vlist (cv_list xs)
  | .vdict l => .vdict (cv_entries l)
  | .vnone => v
  | .vbool _ => v
  | .vint _ => v
  | .vstr _ => v
  | .vother s => .vstr s
termination_by (sizeOf v, 1)

/-- The attribute comprehension of `convert_value`:
`{k: convert_value(v) for k, v in value.__dict__.items() if not k.startswith('_')}`. -/
def cv_attrs (l : List (String × PyVal)) : List (String × PyVal) :=
  match l with
  | [] => []
  | (k, v) :: r =>
    if startsWithUnderscore k then cv_attrs r
    else (k, convert_value v) :: cv_attrs r
termination_by (sizeOf l, 0)

/-- The list comprehension of `convert_value`:
`[convert_value(item) for item in value]` — no truncation. -/
def cv_list (xs : List PyVal) : List PyVal :=
  match xs with
  | [] => []
  | x :: r => convert_value x :: cv_list r
termination_by (sizeOf xs, 0)

/-- The dict comprehension of `convert_value`:
`{k: convert_value(v) for k, v in value.items()}` — all entries, in order. -/
def cv_entries (l : List (String × PyVal)) : List (String × PyVal) :=
  match l with
  | [] => []
  | (k, v) :: r => (k, convert_value v) :: cv_entries r
termination_by (sizeOf l, 0)

end

/-!
Tool surface and HTTP mirror.  A tool body is an abstract function from the
positional argument list to its result string (the real bodies call the
remote Speckle API).  `pyCallPositional` models CPython's positional-arity
check when applying a `def` with optional parameters; `handle_exceptions` is
the decorator of `speckle_server.py`, which converts any exception raised
inside the wrapped call into an `Error: ...` string.
-/

structure PyFunSig where
  fname : String
  requiredPositional : Nat
  maxPositional : Nat

/-- Calling a Python function with positional arguments: a TypeError is
raised when the arity is out of range, otherwise the body runs. -/
def pyCallPositional (sig : PyFunSig) (body : List PyVal → String) (args : List PyVal) :
    Except String String :=
  if sig.requiredPositional ≤ args.length ∧ args.length ≤ sig.maxPositional then
    .ok (body args)
  else
    .error (sig.fname ++ "() takes from " ++ toString sig.requiredPositional ++ " to "
      ++ toString sig.maxPositional ++ " positional arguments but "
      ++ toString args.length ++ " were given")

/-- `handle_exceptions`: the result of the wrapped call, or
`f"Error: {str(e)}\n\nFor detailed logs, check the server output."` when it
raised. -/
def handle_exceptions (r : Except String String) : String :=
  match r with
  | .ok s => s
  | .error e => "Error: " ++ e ++ "\n\nFor detailed logs, check the server output."

/-- A tool as importable from `speckle_server` (the `handle_exceptions`
decorator applied around the positional call of the body). -/
def wrappedTool (sig : PyFunSig) (body : List PyVal → String) (args : List PyVal) : String :=
  handle_exceptions (pyCallPositional sig body args)

/- Signatures of the six tool functions in `speckle_server.py`
(required positional count, maximum positional count). -/

def list_projects_sig : PyFunSig := ⟨"list_projects", 0, 1⟩

def get_project_details_sig : PyFunSig := ⟨"get_project_details", 1, 2⟩

def search_projects_sig : PyFunSig := ⟨"search_projects", 1, 1⟩

def get_model_versions_sig : PyFunSig := ⟨"get_model_versions", 2, 3⟩

def get_version_objects_sig : PyFunSig := ⟨"get_version_objects", 2, 3⟩

def query_object_properties_sig : PyFunSig := ⟨"query_object_properties", 3, 3⟩

/- The HTTP mirror endpoints of `http_wrapper.py` and the positional
arguments they forward to the tools. -/

def http_list_projects (body : List PyVal → String) (limit cursor : PyVal) : String :=
  wrappedTool list_projects_sig body [limit, cursor]

def http_get_project_details (body : List PyVal → String) (project_id limit : PyVal) : String :=
  wrappedTool get_project_details_sig body [project_id, limit]

def http_search_projects (body : List PyVal → String) (query cursor : PyVal) : String :=
  wrappedTool search_projects_sig body [query, cursor]

def http_get_model_versions (body : List PyVal → String)
    (project_id model_id limit cursor : PyVal) : String :=
  wrappedTool get_model_versions_sig body [project_id, model_id, limit, cursor]

def http_get_version_objects (body : List PyVal → String)
    (project_id version_id include_children cursor : PyVal) : String :=
  wrappedTool get_version_objects_sig body [project_id, version_id, include_children, cursor]

def http_query_object_properties (body : List PyVal → String)
    (project_id version_id property_path : PyVal) : String :=
  wrappedTool query_object_properties_sig body [project_id, version_id, property_path]

/-! Helper lemmas about the serializer's comprehensions. -/

theorem conv_each_eq_map (xs : List PyVal) (d m : Nat) (i : Bool) :
    conv_each xs d m i = xs.map (fun x => convert_to_dict x (d + 1) m i) := by
  induction xs with
  | nil => simp [conv_each]
  | cons x r ih => simp [conv_each, ih]

theorem conv_entries_eq_map (l : List (String × PyVal)) (d m : Nat) (i : Bool) :
    conv_entries l d m i = l.map (fun kv => (kv.1, convert_to_dict kv.2 (d + 1) m i)) := by
  induction l with
  | nil => simp [conv_entries]
  | cons kv r ih => cases kv; simp [conv_entries, ih]

theorem conv_attrs_eq (l : List (String × PyVal)) (d m : Nat) (i : Bool) :
    conv_attrs l d m i =
      (l.filter (fun kv => !startsWithUnderscore kv.1)).map
        (fun kv => (kv.1, process_value kv.2 d m i)) := by
  induction l with
  | nil => simp [conv_attrs]
  | cons kv r ih =>
    cases kv with
    | mk k v =>
      by_cases h : startsWithUnderscore k
      · simp [conv_attrs, h, ih, List.filter_cons]
      · simp [conv_attrs, h, ih, List.filter_cons]

theorem convert_to_dict_stub_of_depth (v : PyVal) (d m : Nat) (h : m < d) :
    convert_to_dict v d m false = refStub v := by
  rw [convert_to_dict.eq_def]
  simp [h]

theorem process_dict_result_stub_of_depth (data : List (String × PyVal)) (d m : Nat)
    (h : m < d) :
    process_dict_result data d m false
      = .vdict [("id", (data.lookup "id").getD .vnone), ("_type", .vstr "reference")] := by
  rw [process_dict_result]
  simp [h]

/-- Claim C1: with `include_children = false`, whenever the Graph Serializer
reaches a node at recursion depth `d` greater than `max_depth` (depth counted
from 0 at the root, bound test `depth > max_depth`), its entire output for
that node is the Reference Stub — and likewise on the `to_dict`
post-processing path — so no Serialized Node appears in the output beyond the
bound except as a Reference Stub. -/
theorem depth_exceeded_yields_reference_stub :
    (∀ (v : PyVal) (d m : Nat), m < d →
      convert_to_dict v d m false = refStub v) ∧
    (∀ (data : List (String × PyVal)) (d m : Nat), m < d →
      process_dict_result data d m false
        = .vdict [("id", (data.lookup "id").getD .vnone), ("_type", .vstr "reference")]) :=
  ⟨convert_to_dict_stub_of_depth, process_dict_result_stub_of_depth⟩

/-- Witness for C1: a node nested past `max_depth = 1` at depth 2 serializes
to its Reference Stub. -/
theorem depth_exceeded_yields_reference_stub_witness :
    convert_to_dict (.vobj [("id", .vstr "abc"), ("x", .vint 3)]) 2 1 false
        = .vdict [("id", .vstr "abc"), ("_type", .vstr "reference")] ∧
      process_dict_result [("x", .vint 3)] 2 1 false
        = .vdict [("id", .vnone), ("_type", .vstr "reference")] := by
  constructor
  · rw [depth_exceeded_yields_reference_stub.1 _ 2 1 (by decide)]
    rfl
  · rw [depth_exceeded_yields_reference_stub.2 _ 2 1 (by decide)]
    rfl

/-- Claim C6: a Reference Stub (either from `convert_to_dict`'s depth guard
or from `_process_dict_result`'s) is a mapping whose keys are exactly
`id` and `_type`, whose `id` value is the node's `id` attribute (null when
absent) and whose `_type` value is the marker `"reference"`; no attribute of
the node other than `id` contributes an entry (any key other than `id` and
the reserved marker key `_type` is absent). -/
theorem reference_stub_shape :
    (∀ (v : PyVal) (d m : Nat), m < d →
      keysOf (convert_to_dict v d m false) = ["id", "_type"] ∧
      valAt (convert_to_dict v d m false) "id" = some (pyGetattrId v) ∧
      valAt (convert_to_dict v d m false) "_type" = some (.vstr "reference") ∧
      ∀ (attrs : List (String × PyVal)) (k : String), v = .vobj attrs →
        k ∈ attrs.map Prod.fst → k ≠ "id" → k ≠ "_type" →
          k ∉ keysOf (convert_to_dict v d m false)) ∧
    (∀ (data : List (String × PyVal)) (d m : Nat), m < d →
      keysOf (process_dict_result data d m false) = ["id", "_type"] ∧
      valAt (process_dict_result data d m false) "id"
        = some ((data.lookup "id").getD .vnone) ∧
      valAt (process_dict_result data d m false) "_type" = some (.vstr "reference") ∧
      ∀ k : String, k ∈ data.map Prod.fst → k ≠ "id" → k ≠ "_type" →
        k ∉ keysOf (process_dict_result data d m false)) := by
  constructor
  · intro v d m h
    rw [convert_to_dict_stub_of_depth v d m h]
    refine ⟨rfl, rfl, rfl, ?_⟩
    intro attrs k _ _ hkid hktype
    show k ∉ ["id", "_type"]
    intro hmem
    rcases List.mem_cons.mp hmem with h1 | h1
    · exact hkid h1
    · rcases List.mem_cons.mp h1 with h2 | h2
      · exact hktype h2
      · exact absurd h2 (List.not_mem_nil k)
  · intro data d m h
    rw [process_dict_result_stub_of_depth data d m h]
    refine ⟨rfl, rfl, rfl, ?_⟩
    intro k _ hkid hktype
    show k ∉ ["id", "_type"]
    intro hmem
    rcases List.mem_cons.mp hmem with h1 | h1
    · exact hkid h1
    · rcases List.mem_cons.mp h1 with h2 | h2
      · exact hktype h2
      · exact absurd h2 (List.not_mem_nil k)

/-- Witness for C6: stub shape at a concrete node with an extra attribute. -/
theorem reference_stub_shape_witness :
    keysOf (convert_to_dict (.vobj [("id", .vstr "abc"), ("foo", .vint 3)]) 3 2 false)
        = ["id", "_type"] ∧
      "foo" ∉ keysOf (convert_to_dict (.vobj [("id", .vstr "abc"), ("foo", .vint 3)]) 3 2 false) := by
  refine ⟨(reference_stub_shape.1 _ 3 2 (by decide)).1, ?_⟩
  exact (reference_stub_shape.1 _ 3 2 (by decide)).2.2.2 _ "foo" rfl (by decide)
    (by decide) (by decide)

/-! Truncation behaviour of `_process_list` / `_process_dict` (claim C2). -/

theorem dictSet_eq_append {l : List (String × PyVal)} {k : String} {v : PyVal}
    (h : k ∉ l.map Prod.fst) : dictSet l k v = l ++ [(k, v)] := by
  induction l with
  | nil => rfl
  | cons kv r ih =>
    cases kv with
    | mk k' v' =>
      simp only [List.map_cons, List.mem_cons] at h
      push_neg at h
      simp only [dictSet, if_neg (Ne.symm h.1), ih h.2, List.cons_append]

theorem dictSet_length_of_mem {l : List (String × PyVal)} {k : String} {v : PyVal}
    (h : k ∈ l.map Prod.fst) : (dictSet l k v).length = l.length := by
  induction l with
  | nil => simp at h
  | cons kv r ih =>
    cases kv with
    | mk k' v' =>
      by_cases hk : k' = k
      · simp [dictSet, hk]
      · simp only [List.map_cons, List.mem_cons] at h
        rcases h with h | h
        · exact absurd h.symm hk
        · simp [dictSet, hk, ih h]

theorem process_list_eq_of_le (xs : List PyVal) (d m : Nat) (i : Bool)
    (h : xs.length ≤ 5) :
    process_list xs d m i = xs.map (fun x => convert_to_dict x (d + 1) m i) := by
  rw [process_list.eq_def]
  by_cases hxs : xs = []
  · simp [hxs]
  · have hne : ¬xs.isEmpty = true := by simp [List.isEmpty_iff, hxs]
    have hnlt : ¬5 < xs.length := by omega
    simp only [hne, if_false, hnlt, if_neg, conv_each_eq_map, List.take_of_length_le h]
    simp

theorem process_list_eq_of_gt (xs : List PyVal) (d m : Nat) (i : Bool)
    (h : 5 < xs.length) :
    process_list xs d m i
      = (xs.take 5).map (fun x => convert_to_dict x (d + 1) m i)
        ++ [.vdict [("_note", .vstr (moreItemsNote (xs.length - 5)))]] := by
  rw [process_list.eq_def]
  have hne : ¬xs.isEmpty = true := by
    simp [List.isEmpty_iff]
    intro hx
    subst hx
    simp at h
  simp only [hne, if_false, h, if_true, conv_each_eq_map]
  simp

theorem process_dict_eq_of_le (l : List (String × PyVal)) (d m : Nat) (i : Bool)
    (h : l.length ≤ 5) :
    process_dict l d m i = l.map (fun kv => (kv.1, convert_to_dict kv.2 (d + 1) m i)) := by
  rw [process_dict.eq_def]
  by_cases hl : l = []
  · simp [hl]
  · have hne : ¬l.isEmpty = true := by simp [List.isEmpty_iff, hl]
    have hnlt : ¬5 < l.length := by omega
    simp only [hne, if_false, hnlt, if_neg, conv_entries_eq_map, List.take_of_length_le h]
    simp

theorem process_dict_eq_of_gt (l : List (String × PyVal)) (d m : Nat) (i : Bool)
    (h : 5 < l.length) :
    process_dict l d m i
      = dictSet ((l.take 5).map (fun kv => (kv.1, convert_to_dict kv.2 (d + 1) m i)))
          "_note" (.vstr (moreItemsNote (l.length - 5))) := by
  rw [process_dict.eq_def]
  have hne : ¬l.isEmpty = true := by
    simp [List.isEmpty_iff]
    intro hx
    subst hx
    simp at h
  simp only [hne, if_false, h, if_true, conv_entries_eq_map]
  simp

/-- Counterexample to C2 as stated: a six-entry mapping whose first key is
`_note`.  The sentinel assignment `result["_note"] = ...` overwrites the kept
first entry in place, so the output has five entries and the original
`_note` entry's value is lost — not "the first 5 entries plus one sentinel
entry". -/
theorem truncation_note_key_counterexample :
    process_dict
        [("_note", .vint 1), ("a", .vint 2), ("b", .vint 3),
         ("c", .vint 4), ("d", .vint 5), ("e", .vint 6)] 0 2 false
      ≠ ([("_note", .vint 1), ("a", .vint 2), ("b", .vint 3),
          ("c", .vint 4), ("d", .vint 5), ("e", .vint 6)].take 5).map
            (fun kv => (kv.1, convert_to_dict kv.2 1 2 false))
        ++ [("_note", .vstr (moreItemsNote 1))] := by
  intro heq
  have hlen := congrArg List.length heq
  rw [process_dict_eq_of_gt _ 0 2 false (by decide)] at hlen
  rw [dictSet_length_of_mem (by decide)] at hlen
  simp at hlen

/-- Claim C2, amended: lists of length `L ≤ 5` are kept whole in order with
no sentinel, lists with `L > 5` keep the first 5 plus one appended sentinel
reporting `L - 5`; mappings behave the same way provided `_note` is not
among the first `min(5, L)` keys — when it is and `L > 5`, the sentinel
overwrites that kept entry in place instead of being added. -/
theorem truncation_amended :
    (∀ (xs : List PyVal) (d m : Nat) (i : Bool), xs.length ≤ 5 →
      process_list xs d m i = xs.map (fun x => convert_to_dict x (d + 1) m i)) ∧
    (∀ (xs : List PyVal) (d m : Nat) (i : Bool), 5 < xs.length →
      process_list xs d m i
        = (xs.take 5).map (fun x => convert_to_dict x (d + 1) m i)
          ++ [.vdict [("_note", .vstr (moreItemsNote (xs.length - 5)))]]) ∧
    (∀ (l : List (String × PyVal)) (d m : Nat) (i : Bool), l.length ≤ 5 →
      process_dict l d m i = l.map (fun kv => (kv.1, convert_to_dict kv.2 (d + 1) m i))) ∧
    (∀ (l : List (String × PyVal)) (d m : Nat) (i : Bool), 5 < l.length →
      "_note" ∉ (l.take 5).map Prod.fst →
      process_dict l d m i
        = (l.take 5).map (fun kv => (kv.1, convert_to_dict kv.2 (d + 1) m i))
          ++ [("_note", .vstr (moreItemsNote (l.length - 5)))]) := by
  refine ⟨process_list_eq_of_le, process_list_eq_of_gt, process_dict_eq_of_le, ?_⟩
  intro l d m i h hnote
  rw [process_dict_eq_of_gt l d m i h]
  have hkeys : "_note" ∉ ((l.take 5).map (fun kv => (kv.1, convert_to_dict kv.2 (d + 1) m i))).map Prod.fst := by
    simpa using hnote
  exact dictSet_eq_append hkeys

/-- Witness for C2 (amended): the spec's own example list of 7 elements keeps
the first 5 and appends a `...2 more items` sentinel; a 7-entry mapping
without `_note` among its first five keys appends the sentinel entry. -/
theorem truncation_amended_witness :
    process_list [.vint 1, .vint 2, .vint 3, .vint 4, .vint 5, .vint 6, .vint 7] 0 2 false
        = [.vint 1, .vint 2, .vint 3, .vint 4, .vint 5,
           .vdict [("_note", .vstr "...2 more items")]] ∧
      process_dict
          [("a", .vint 1), ("b", .vint 2), ("c", .vint 3), ("d", .vint 4),
           ("e", .vint 5), ("f", .vint 6), ("g", .vint 7)] 0 2 false
        = [("a", .vint 1), ("b", .vint 2), ("c", .vint 3), ("d", .vint 4),
           ("e", .vint 5), ("_note", .vstr "...2 more items")] := by
  constructor
  · rw [truncation_amended.2.1 _ 0 2 false (by decide)]
    norm_num [convert_to_dict, moreItemsNote]
    decide
  · rw [truncation_amended.2.2.2 _ 0 2 false (by decide) (by decide)]
    norm_num [convert_to_dict, moreItemsNote]
    decide

/-! Underscore-prefixed keys and attributes (claim C9). -/

theorem dictSet_keys_superset {l : List (String × PyVal)} {k k0 : String} {v : PyVal}
    (h : k ∈ l.map Prod.fst) : k ∈ (dictSet l k0 v).map Prod.fst := by
  induction l with
  | nil => simp at h
  | cons kv r ih =>
    cases kv with
    | mk k' v' =>
      by_cases hk : k' = k0
      · subst hk
        simp only [List.map_cons, List.mem_cons] at h
        simp [dictSet]
        simpa using h
      · simp only [List.map_cons, List.mem_cons] at h
        simp only [dictSet, if_neg hk, List.map_cons, List.mem_cons]
        rcases h with h | h
        · exact Or.inl h
        · exact Or.inr (ih h)

/-- Claim C9: the serializer's underscore exclusion applies only to the
attribute stores of structured objects.  A plain mapping keeps every key
among its first five kept entries, underscore-prefixed or not, while a
structured object serialized within the depth bound never emits an
attribute whose name starts with an underscore. -/
theorem underscore_exclusion_scope :
    (∀ (l : List (String × PyVal)) (d m : Nat) (i : Bool) (k : String),
      startsWithUnderscore k = true → k ∈ (l.take 5).map Prod.fst →
        k ∈ (process_dict l d m i).map Prod.fst) ∧
    (∀ (attrs : List (String × PyVal)) (d m : Nat) (i : Bool) (k : String),
      d ≤ m → startsWithUnderscore k = true →
        k ∉ keysOf (convert_to_dict (.vobj attrs) d m i)) := by
  constructor
  · intro l d m i k _ hmem
    by_cases h5 : 5 < l.length
    · rw [process_dict_eq_of_gt l d m i h5]
      apply dictSet_keys_superset
      simpa using hmem
    · rw [process_dict_eq_of_le l d m i (by omega)]
      rw [List.take_of_length_le (by omega)] at hmem
      simpa using hmem
  · intro attrs d m i k hd hu
    have hguard : ¬(m < d ∧ i = false) := by
      intro hc
      omega
    rw [convert_to_dict.eq_def]
    simp only [hguard, if_false]
    simp only [keysOf, conv_attrs_eq, List.map_map, List.mem_map]
    rintro ⟨kv, hkv, hfst⟩
    have := List.of_mem_filter hkv
    simp only [Function.comp_apply] at hfst
    rw [hfst] at this
    simp [hu] at this

/-- Witness for C9: a mapping keeps its `_x` entry among the first five,
while an object drops its `_x` attribute. -/
theorem underscore_exclusion_scope_witness :
    "_x" ∈ (process_dict [("_x", .vint 1), ("y", .vint 2)] 0 2 false).map Prod.fst ∧
      "_x" ∉ keysOf (convert_to_dict (.vobj [("_x", .vint 1), ("y", .vint 2)]) 0 2 false) := by
  constructor
  · exact underscore_exclusion_scope.1 _ 0 2 false "_x" (by decide) (by decide)
  · exact underscore_exclusion_scope.2 _ 0 2 false "_x" (by decide) (by decide)

/-! The Value Normalizer `convert_value` (claim C7). -/

theorem cv_list_eq_map (xs : List PyVal) : cv_list xs = xs.map convert_value := by
  induction xs with
  | nil => simp [cv_list]
  | cons x r ih => simp [cv_list, ih]

theorem cv_entries_eq_map (l : List (String × PyVal)) :
    cv_entries l = l.map (fun kv => (kv.1, convert_value kv.2)) := by
  induction l with
  | nil => simp [cv_entries]
  | cons kv r ih => cases kv; simp [cv_entries, ih]

/-- Claim C7: `convert_value` is total (it is a function of the whole value
universe), maps a sequence to a sequence of the same length with elements
normalized in order, and maps a mapping to a mapping over all its entries,
keys and insertion order preserved — no depth limit, no truncation. -/
theorem convert_value_preserves_structure :
    (∀ xs : List PyVal,
      convert_value (.vlist xs) = .vlist (xs.map convert_value) ∧
      (xs.map convert_value).length = xs.length) ∧
    (∀ l : List (String × PyVal),
      convert_value (.vdict l) = .vdict (l.map (fun kv => (kv.1, convert_value kv.2))) ∧
      (l.map (fun kv => (kv.1, convert_value kv.2))).map Prod.fst = l.map Prod.fst ∧
      (l.map (fun kv => (kv.1, convert_value kv.2))).length = l.length) := by
  constructor
  · intro xs
    constructor
    · rw [convert_value.eq_def]
      simp [cv_list_eq_map]
    · simp
  · intro l
    refine ⟨?_, ?_, by simp⟩
    · rw [convert_value.eq_def]
      simp [cv_entries_eq_map]
    · simp

/-! The `handle_exceptions` boundary (claim C8). -/

/-- Claim C8: every tool is wrapped by `handle_exceptions`; whatever the
underlying call does, the wrapper returns a string — when the call raises
`e`, the caller receives `"Error: " ++ str(e) ++ ...`, a message beginning
with `Error:`, never a raised fault.  (`wrappedTool` is the decorated form
of each tool; an arbitrary outcome of the body, normal or raising, is any
`Except` value.) -/
theorem handle_exceptions_boundary :
    (∀ e : String, ∃ rest : String,
      handle_exceptions (.error e) = "Error:" ++ rest ∧
      handle_exceptions (.error e)
        = "Error: " ++ e ++ "\n\nFor detailed logs, check the server output.") ∧
    (∀ s : String, handle_exceptions (.ok s) = s) ∧
    (∀ (sig : PyFunSig) (body : List PyVal → String) (args : List PyVal),
      wrappedTool sig body args = handle_exceptions (pyCallPositional sig body args)) := by
  refine ⟨?_, fun s => rfl, fun sig body args => rfl⟩
  intro e
  refine ⟨" " ++ (e ++ "\n\nFor detailed logs, check the server output."), ?_, rfl⟩
  show "Error: " ++ e ++ "\n\nFor detailed logs, check the server output."
      = "Error:" ++ (" " ++ (e ++ "\n\nFor detailed logs, check the server output."))
  rw [String.congr_append, String.congr_append, String.congr_append,
    String.congr_append, String.congr_append]
  simp

/-! The HTTP mirror's argument mismatch (claim C3). -/

/-- Claim C3 fails on the code: `http_wrapper.py` forwards an extra `cursor`
argument to `list_projects`, `search_projects`, `get_model_versions` and
`get_version_objects`, none of which accept it.  For every argument
assignment the endpoint accepts, the forwarded call raises `TypeError`
inside `handle_exceptions`, so the endpoint returns an `Error: ...` string
instead of the tool's result, while the tool invoked with its own
parameters returns the body's result.  (`get_project_details` and
`query_object_properties` forward matching arguments.) -/
theorem http_mirror_cursor_mismatch :
    (∀ (body : List PyVal → String) (limit cursor : PyVal),
      http_list_projects body limit cursor
        = "Error: "
          ++ "list_projects() takes from 0 to 1 positional arguments but 2 were given"
          ++ "\n\nFor detailed logs, check the server output.") ∧
    (∀ (body : List PyVal → String) (limit : PyVal),
      wrappedTool list_projects_sig body [limit] = body [limit]) ∧
    (∀ (body : List PyVal → String) (query cursor : PyVal),
      http_search_projects body query cursor
        = "Error: "
          ++ "search_projects() takes from 1 to 1 positional arguments but 2 were given"
          ++ "\n\nFor detailed logs, check the server output.") ∧
    (∀ (body : List PyVal → String) (project_id model_id limit cursor : PyVal),
      http_get_model_versions body project_id model_id limit cursor
        = "Error: "
          ++ "get_model_versions() takes from 2 to 3 positional arguments but 4 were given"
          ++ "\n\nFor detailed logs, check the server output.") ∧
    (∀ (body : List PyVal → String) (project_id version_id include_children cursor : PyVal),
      http_get_version_objects body project_id version_id include_children cursor
        = "Error: "
          ++ "get_version_objects() takes from 2 to 3 positional arguments but 4 were given"
          ++ "\n\nFor detailed logs, check the server output.") ∧
    (∀ (body : List PyVal → String) (project_id version_id property_path : PyVal),
      http_query_object_properties body project_id version_id property_path
        = body [project_id, version_id, property_path]) := by
  refine ⟨?_, ?_, ?_, ?_, ?_, ?_⟩
  · intro body limit cursor
    show handle_exceptions (pyCallPositional list_projects_sig body [limit, cursor]) = _
    rw [pyCallPositional]
    norm_num [list_projects_sig]
    rfl
  · intro body limit
    show handle_exceptions (pyCallPositional list_projects_sig body [limit]) = _
    rw [pyCallPositional]
    norm_num [list_projects_sig]
    rfl
  · intro body query cursor
    show handle_exceptions (pyCallPositional search_projects_sig body [query, cursor]) = _
    rw [pyCallPositional]
    norm_num [search_projects_sig]
    rfl
  · intro body project_id model_id limit cursor
    show handle_exceptions
        (pyCallPositional get_model_versions_sig body [project_id, model_id, limit, cursor]) = _
    rw [pyCallPositional]
    norm_num [get_model_versions_sig]
    rfl
  · intro body project_id version_id include_children cursor
    show handle_exceptions
        (pyCallPositional get_version_objects_sig body
          [project_id, version_id, include_children, cursor]) = _
    rw [pyCallPositional]
    norm_num [get_version_objects_sig]
    rfl
  · intro body project_id version_id property_path
    show handle_exceptions
        (pyCallPositional query_object_properties_sig body
          [project_id, version_id, property_path]) = _
    rw [pyCallPositional]
    norm_num [query_object_properties_sig]
    rfl

/-! Index resolution on sequences (claim C5). -/

/-- Claim C5: when a path segment is all decimal digits and the current
value is a sequence, an out-of-bounds index always produces the
index-out-of-range error carrying the path so far — never a
property-not-found error. -/
theorem digit_segment_on_sequence_out_of_range
    (xs : List PyVal) (part : String) (rest : List String) (psf : String) (first : Bool)
    (hdigit : pyIsDigit part = true) (hlen : xs.length ≤ pyStrToNat part) :
    gpp_go (.vlist xs) (part :: rest) psf first
      = (none, some ("Index " ++ toString (pyStrToNat part) ++ " out of range at path '"
          ++ (psf ++ (if first then "" else ".") ++ part) ++ "'")) := by
  rw [gpp_go]
  have hguard : (pyIsDigit part && isVList (.vlist xs)) = true := by
    simp [hdigit, isVList]
  have hnlt : ¬pyStrToNat part < (pyListElems (.vlist xs)).length := by
    simp [pyListElems]
    omega
  simp [hguard, hnlt, pyListElems]
  intro hc
  omega

/-- Witness for C5: the spec's example — `elements.0.name` against an object
whose `elements` attribute is an empty sequence fails with
`Index 0 out of range at path 'elements.0'` (the result of
`get_property_by_path` reaches this via the object attribute step). -/
theorem digit_segment_on_sequence_out_of_range_witness :
    gpp_go (.vlist []) ["0", "name"] "elements" false
        = (none, some "Index 0 out of range at path 'elements.0'") ∧
      get_property_by_path (.vobj [("elements", .vlist [])]) "elements.0.name"
        = (none, some "Index 0 out of range at path 'elements.0'") := by
  constructor
  · have h := digit_segment_on_sequence_out_of_range [] "0" ["name"] "elements" false
      (by decide) (by decide)
    simpa using h
  · rfl

/-! The empty path (claim C10). -/

theorem gpp_empty_path_eq (obj : PyVal) :
    get_property_by_path obj ""
      = match gpp_lookup obj "" with
        | some v => (some v, none)
        | none => (none, some "Property '' not found at path ''") := by
  show gpp_go obj [""] "" true = _
  rw [gpp_go]
  have hd : pyIsDigit "" = false := rfl
  simp only [hd, Bool.false_and, Bool.false_eq_true, if_false]
  cases hgl : gpp_lookup obj "" with
  | none => simp [hgl]
  | some v => simp [hgl, gpp_go]

/-- Counterexample to C10 as stated: a root object whose attribute store
contains the key `"@"` (a dynamic attribute with an empty name).  For the
empty path the navigator's fifth branch checks `hasattr(current, "@" + "")`
and returns that attribute's value instead of the claimed
`PropertyNotFound("", "")` error. -/
theorem empty_path_counterexample :
    get_property_by_path (.vobj [("@", .vint 7)]) "" = (some (.vint 7), none) ∧
      ((some (PyVal.vint 7), (none : Option String))
        ≠ ((none : Option PyVal), some "Property '' not found at path ''")) := by
  exact ⟨rfl, by simp⟩

/-- Claim C10, amended: for the empty path, `get_property_by_path` does not
raise; it treats the path as the single segment `""` and returns the value
under the empty-string key/attribute when the root has one, otherwise the
value under the attribute named `"@"` (the `@`-prefixed dynamic-attribute
branch applied to the empty segment), and only otherwise the error
`Property '' not found at path ''`. -/
theorem empty_path_amended (obj : PyVal) :
    (∀ v, dictLookup obj "" = some v →
      get_property_by_path obj "" = (some v, none)) ∧
    (dictLookup obj "" = none → ∀ v, pyGetattr obj "" = some v →
      get_property_by_path obj "" = (some v, none)) ∧
    (dictLookup obj "" = none → pyGetattr obj "" = none →
      ∀ v, pyGetattr obj "@" = some v →
        get_property_by_path obj "" = (some v, none)) ∧
    (dictLookup obj "" = none → pyGetattr obj "" = none → pyGetattr obj "@" = none →
      get_property_by_path obj "" = (none, some "Property '' not found at path ''")) := by
  have hat : ("@" : String) ++ "" = "@" := rfl
  refine ⟨?_, ?_, ?_, ?_⟩
  · intro v h1
    rw [gpp_empty_path_eq]
    simp [gpp_lookup, h1]
  · intro h1 v h2
    rw [gpp_empty_path_eq]
    simp [gpp_lookup, h1, h2]
  · intro h1 h2 v h3
    rw [gpp_empty_path_eq]
    simp [gpp_lookup, h1, h2, hat, h3]
  · intro h1 h2 h3
    rw [gpp_empty_path_eq]
    simp [gpp_lookup, h1, h2, hat, h3]

/-- Witness for C10 (amended): a root object storing a value under the
empty-string attribute name yields that value; a scalar root yields the
error. -/
theorem empty_path_amended_witness :
    get_property_by_path (.vobj [("", .vint 5)]) "" = (some (.vint 5), none) ∧
      get_property_by_path (.vint 3) "" = (none, some "Property '' not found at path ''") := by
  constructor
  · exact (empty_path_amended (.vobj [("", .vint 5)])).2.1 rfl (.vint 5) rfl
  · exact (empty_path_amended (.vint 3)).2.2.2 rfl rfl rfl

/-! Path strings: joining split segments back (for claim C4). -/

theorem str_append_assoc : ∀ a b c : String, (a ++ b) ++ c = a ++ (b ++ c)
  | ⟨la⟩, ⟨lb⟩, ⟨lc⟩ => by
    show String.mk ((la ++ lb) ++ lc) = String.mk (la ++ (lb ++ lc))
    rw [List.append_assoc]

theorem str_append_empty : ∀ a : String, a ++ "" = a
  | ⟨la⟩ => by
    show String.mk (la ++ []) = String.mk la
    rw [List.append_nil]

theorem joinDot_cons_cons (a b : String) (r : List String) :
    joinDot (a :: b :: r) = a ++ "." ++ joinDot (b :: r) := rfl

theorem joinDot_append_singleton (pre : List String) (part : String) :
    joinDot (pre ++ [part])
      = joinDot pre ++ (if pre.isEmpty = true then "" else ".") ++ part := by
  induction pre with
  | nil => exact (str_append_empty part).symm ▸ rfl
  | cons p pre' ih =>
    cases pre' with
    | nil => rfl
    | cons q pre'' =>
      show p ++ "." ++ joinDot ((q :: pre'') ++ [part])
          = joinDot (p :: q :: pre'')
            ++ (if (p :: q :: pre'').isEmpty = true then "" else ".") ++ part
      rw [ih]
      simp only [List.isEmpty_cons, Bool.false_eq_true, if_false, joinDot_cons_cons,
        str_append_assoc]

theorem joinDot_map_mk : ∀ l : List (List Char),
    joinDot (l.map String.mk) = String.mk (joinDotChar l)
  | [] => rfl
  | [c] => rfl
  | c :: c2 :: r => by
    show String.mk c ++ "." ++ joinDot ((c2 :: r).map String.mk)
        = String.mk (c ++ '.' :: joinDotChar (c2 :: r))
    rw [joinDot_map_mk (c2 :: r)]
    show String.mk ((c ++ ['.']) ++ joinDotChar (c2 :: r)) = _
    rw [List.append_assoc]
    rfl

theorem splitDotChar_ne_nil : ∀ cs : List Char, splitDotChar cs ≠ []
  | [] => by simp [splitDotChar]
  | c :: r => by
    rw [splitDotChar]
    by_cases h : c = '.'
    · simp [h]
    · simp only [h, if_false]
      cases splitDotChar r <;> simp

theorem joinDotChar_splitDotChar : ∀ cs : List Char, joinDotChar (splitDotChar cs) = cs
  | [] => rfl
  | c :: r => by
    rw [splitDotChar]
    by_cases h : c = '.'
    · subst h
      simp only [if_pos rfl]
      cases hs : splitDotChar r with
      | nil => exact absurd hs (splitDotChar_ne_nil r)
      | cons seg rest =>
        show [] ++ '.' :: joinDotChar (seg :: rest) = '.' :: r
        rw [List.nil_append, ← hs, joinDotChar_splitDotChar r]
    · simp only [h, if_false]
      cases hs : splitDotChar r with
      | nil => exact absurd hs (splitDotChar_ne_nil r)
      | cons seg rest =>
        cases rest with
        | nil =>
          show c :: seg = c :: r
          have hj := joinDotChar_splitDotChar r
          rw [hs] at hj
          have hsr : seg = r := hj
          rw [hsr]
        | cons seg2 rest' =>
          show (c :: seg) ++ '.' :: joinDotChar (seg2 :: rest') = c :: r
          have := joinDotChar_splitDotChar r
          rw [hs] at this
          rw [← this]
          rfl

theorem joinDot_pySplitDot (s : String) : joinDot (pySplitDot s) = s := by
  rw [pySplitDot, joinDot_map_mk, joinDotChar_splitDotChar]

theorem joinDot_take_exists_rest :
    ∀ (l : List String) (k : Nat), ∃ t, joinDot l = joinDot (l.take (k + 1)) ++ t := by
  intro l
  induction l with
  | nil => exact fun k => ⟨"", rfl⟩
  | cons s r ih =>
    intro k
    cases r with
    | nil =>
      refine ⟨"", ?_⟩
      cases k <;> exact (str_append_empty s).symm
    | cons q r' =>
      cases k with
      | zero =>
        refine ⟨"." ++ joinDot (q :: r'), ?_⟩
        rw [joinDot_cons_cons]
        show (s ++ ".") ++ joinDot (q :: r') = joinDot [s] ++ ("." ++ joinDot (q :: r'))
        rw [str_append_assoc s "." (joinDot (q :: r'))]
        rfl
      | succ k' =>
        obtain ⟨t, ht⟩ := ih k'
        refine ⟨t, ?_⟩
        rw [joinDot_cons_cons, ht]
        have htake : (s :: q :: r').take (k' + 1 + 1) = s :: ((q :: r').take (k' + 1)) := rfl
        rw [htake]
        have hne : (q :: r').take (k' + 1) = q :: (r'.take k') := rfl
        rw [hne, joinDot_cons_cons, ← hne]
        rw [str_append_assoc (s ++ ".") (joinDot ((q :: r').take (k' + 1))) t]

/-! Totality, error sub-paths, and the `int()` raise path of the Path
Navigator (claim C4). -/

theorem pyIsDigit_imp_full {s : String} (h : pyIsDigit s = true) : pyIsDigitFull s = true := by
  simp only [pyIsDigit, Bool.and_eq_true, List.all_eq_true] at h
  simp only [pyIsDigitFull, Bool.and_eq_true, List.all_eq_true]
  exact ⟨h.1, fun c hc => by simp [h.2 c hc]⟩

theorem pyIntParses_eq_pyIsDigit (s : String) : pyIntParses s = pyIsDigit s := rfl

/-- Wherever the exception-aware navigator returns, it returns exactly what
`gpp_go` computes: the two models agree on every non-raising run. -/
theorem gpp_go_exc_ok_eq :
    ∀ (parts : List String) (current : PyVal) (psf : String) (first : Bool)
      (r : Option PyVal × Option String),
      gpp_go_exc current parts psf first = .ok r → gpp_go current parts psf first = r := by
  intro parts
  induction parts with
  | nil =>
    intro current psf first r h
    rw [gpp_go_exc] at h
    rw [gpp_go]
    exact Except.ok.inj h
  | cons part rest ih =>
    intro current psf first r h
    rw [gpp_go_exc] at h
    rw [gpp_go]
    by_cases hfull : (pyIsDigitFull part && isVList current) = true
    · by_cases hparse : pyIntParses part = true
      · have hVL : isVList current = true := by
          have hf := hfull
          simp only [Bool.and_eq_true] at hf
          exact hf.2
        have hA : (pyIsDigit part && isVList current) = true := by
          have h1 : pyIsDigit part = true := by
            rw [← pyIntParses_eq_pyIsDigit]
            exact hparse
          simp [h1, hVL]
        by_cases hidx : pyStrToNat part < (pyListElems current).length
        · simp only [hfull, if_true, hparse, hidx] at h
          simp only [hA, if_true, hidx, if_true]
          exact ih _ _ _ _ h
        · simp only [hfull, if_true, hparse, hidx, if_false] at h
          simp only [hA, if_true, hidx, if_false]
          exact Except.ok.inj h
      · rw [Bool.not_eq_true] at hparse
        simp only [hfull, if_true, hparse, Bool.false_eq_true, if_false] at h
        simp at h
    · have hA : ¬(pyIsDigit part && isVList current) = true := by
        intro hc
        simp only [Bool.and_eq_true] at hc
        exact hfull (by simp [pyIsDigit_imp_full hc.1, hc.2])
      rw [Bool.not_eq_true] at hfull hA
      cases hgl : gpp_lookup current part with
      | some v =>
        simp only [hfull, Bool.false_eq_true, if_false, hgl] at h
        simp only [hA, Bool.false_eq_true, if_false, hgl]
        exact ih _ _ _ _ h
      | none =>
        simp only [hfull, Bool.false_eq_true, if_false, hgl] at h
        simp only [hA, Bool.false_eq_true, if_false, hgl]
        exact Except.ok.inj h

/-- Every run of the exception-aware navigator ends one of three ways: a
value, an error message quoting the join of the consumed segments, or the
`ValueError` from `int()` naming the offending segment. -/
theorem gpp_go_exc_spec (parts : List String) :
    ∀ (current : PyVal) (pre : List String),
    (∃ v, gpp_go_exc current parts (joinDot pre) pre.isEmpty = .ok (some v, none)) ∨
    (∃ k, k < parts.length ∧
      (gpp_go_exc current parts (joinDot pre) pre.isEmpty
          = .ok (none, some ("Property '" ++ parts.getD k "" ++ "' not found at path '"
              ++ joinDot (pre ++ parts.take (k + 1)) ++ "'"))
        ∨ ∃ n : Nat,
          gpp_go_exc current parts (joinDot pre) pre.isEmpty
            = .ok (none, some ("Index " ++ toString n ++ " out of range at path '"
                ++ joinDot (pre ++ parts.take (k + 1)) ++ "'")))) ∨
    (∃ k, k < parts.length ∧
      gpp_go_exc current parts (joinDot pre) pre.isEmpty
        = .error ("invalid literal for int() with base 10: '" ++ parts.getD k "" ++ "'")) := by
  induction parts with
  | nil =>
    intro current pre
    exact Or.inl ⟨current, rfl⟩
  | cons part rest ih =>
    intro current pre
    have hpsf : joinDot pre ++ (if pre.isEmpty = true then "" else ".") ++ part
        = joinDot (pre ++ [part]) := (joinDot_append_singleton pre part).symm
    have hemp : (pre ++ [part]).isEmpty = false := by simp
    by_cases hguard : (pyIsDigitFull part && isVList current) = true
    · by_cases hparse : pyIntParses part = true
      · by_cases hidx : pyStrToNat part < (pyListElems current).length
        · have hrec := ih ((pyListElems current).getD (pyStrToNat part) .vnone) (pre ++ [part])
          rw [hemp] at hrec
          have heq : gpp_go_exc current (part :: rest) (joinDot pre) pre.isEmpty
              = gpp_go_exc ((pyListElems current).getD (pyStrToNat part) .vnone) rest
                  (joinDot (pre ++ [part])) false := by
            rw [gpp_go_exc]
            simp only [hguard, if_true, hparse, hidx, if_true, hpsf]
          rw [heq]
          rcases hrec with ⟨v, hv⟩ | ⟨k, hk, herr⟩ | ⟨k, hk, herr⟩
          · exact Or.inl ⟨v, hv⟩
          · refine Or.inr (Or.inl ⟨k + 1, by simpa using Nat.succ_lt_succ hk, ?_⟩)
            have hshift : pre ++ (part :: rest).take (k + 1 + 1)
                = (pre ++ [part]) ++ rest.take (k + 1) := by
              rw [List.take_succ_cons, List.append_cons]
            have hgetd : (part :: rest).getD (k + 1) "" = rest.getD k "" := rfl
            rw [hshift, hgetd]
            exact herr
          · refine Or.inr (Or.inr ⟨k + 1, by simpa using Nat.succ_lt_succ hk, ?_⟩)
            have hgetd : (part :: rest).getD (k + 1) "" = rest.getD k "" := rfl
            rw [hgetd]
            exact herr
        · refine Or.inr (Or.inl ⟨0, by simp, Or.inr ⟨pyStrToNat part, ?_⟩⟩)
          rw [gpp_go_exc]
          simp only [hguard, if_true, hparse, hidx, if_false, hpsf]
          rfl
      · rw [Bool.not_eq_true] at hparse
        refine Or.inr (Or.inr ⟨0, by simp, ?_⟩)
        rw [gpp_go_exc]
        simp only [hguard, if_true, hparse, Bool.false_eq_true, if_false]
        rfl
    · rw [Bool.not_eq_true] at hguard
      cases hgl : gpp_lookup current part with
      | some v =>
        have heq : gpp_go_exc current (part :: rest) (joinDot pre) pre.isEmpty
            = gpp_go_exc v rest (joinDot (pre ++ [part])) false := by
          rw [gpp_go_exc]
          simp only [hguard, Bool.false_eq_true, if_false, hgl, hpsf]
        rw [heq]
        have hrec := ih v (pre ++ [part])
        rw [hemp] at hrec
        rcases hrec with ⟨w, hw⟩ | ⟨k, hk, herr⟩ | ⟨k, hk, herr⟩
        · exact Or.inl ⟨w, hw⟩
        · refine Or.inr (Or.inl ⟨k + 1, by simpa using Nat.succ_lt_succ hk, ?_⟩)
          have hshift : pre ++ (part :: rest).take (k + 1 + 1)
              = (pre ++ [part]) ++ rest.take (k + 1) := by
            rw [List.take_succ_cons, List.append_cons]
          have hgetd : (part :: rest).getD (k + 1) "" = rest.getD k "" := rfl
          rw [hshift, hgetd]
          exact herr
        · refine Or.inr (Or.inr ⟨k + 1, by simpa using Nat.succ_lt_succ hk, ?_⟩)
          have hgetd : (part :: rest).getD (k + 1) "" = rest.getD k "" := rfl
          rw [hgetd]
          exact herr
      | none =>
        refine Or.inr (Or.inl ⟨0, by simp, Or.inl ?_⟩)
        rw [gpp_go_exc]
        simp only [hguard, Bool.false_eq_true, if_false, hgl, hpsf]
        rfl

/-- Counterexample to C4 as stated: resolving the single-segment path `"²"`
against the sequence `[10, 20]` raises.  `"²".isdigit()` is true (U+00B2 has
`Numeric_Type=Digit`) and the current value is a sequence, so the source
executes `int("²")`, which raises `ValueError` out of
`get_property_by_path` — the function neither returns a value nor an error
tuple there, refuting "total ... never raises". -/
theorem path_navigator_raises_counterexample :
    get_property_by_path_exc (.vlist [.vint 10, .vint 20]) "²"
      = .error "invalid literal for int() with base 10: '²'" := rfl

/-- Claim C4, amended: for every root and non-empty path,
`get_property_by_path` either returns (value, no error), or returns
(no value, error) where the sub-path quoted in the error message is the join
of the consumed segments up to and including the failing one — a string
prefix of the input path — or raises the `ValueError` of `int()` on a
segment that is `isdigit`-true but not decimal (such as `"²"`) applied to a
sequence; no other exception and no other outcome is possible. -/
theorem path_navigator_total_amended (obj : PyVal) (path : String) (hne : path ≠ "") :
    (∃ v, get_property_by_path_exc obj path = .ok (some v, none)) ∨
    (∃ k, k < (pySplitDot path).length ∧
      (∃ t, path = joinDot ((pySplitDot path).take (k + 1)) ++ t) ∧
      (get_property_by_path_exc obj path
          = .ok (none, some ("Property '" ++ (pySplitDot path).getD k "" ++ "' not found at path '"
              ++ joinDot ((pySplitDot path).take (k + 1)) ++ "'"))
        ∨ ∃ n : Nat, get_property_by_path_exc obj path
          = .ok (none, some ("Index " ++ toString n ++ " out of range at path '"
              ++ joinDot ((pySplitDot path).take (k + 1)) ++ "'")))) ∨
    (∃ k, k < (pySplitDot path).length ∧
      get_property_by_path_exc obj path
        = .error ("invalid literal for int() with base 10: '"
            ++ (pySplitDot path).getD k "" ++ "'")) := by
  have hspec := gpp_go_exc_spec (pySplitDot path) obj []
  rw [show joinDot ([] : List String) = "" from rfl] at hspec
  rw [show (([] : List String).isEmpty) = true from rfl] at hspec
  simp only [List.nil_append] at hspec
  rw [get_property_by_path_exc]
  rcases hspec with ⟨v, hv⟩ | ⟨k, hk, herr⟩ | ⟨k, hk, herr⟩
  · exact Or.inl ⟨v, hv⟩
  · refine Or.inr (Or.inl ⟨k, hk, ?_, herr⟩)
    obtain ⟨t, ht⟩ := joinDot_take_exists_rest (pySplitDot path) k
    refine ⟨t, ?_⟩
    calc path = joinDot (pySplitDot path) := (joinDot_pySplitDot path).symm
      _ = joinDot ((pySplitDot path).take (k + 1)) ++ t := ht
  · exact Or.inr (Or.inr ⟨k, hk, herr⟩)

/-- Witness for C4 (amended): querying `"x"` on an empty object yields the
property-not-found outcome with sub-path `"x"`. -/
theorem path_navigator_total_amended_witness :
    (∃ v, get_property_by_path_exc (.vobj []) "x" = .ok (some v, none)) ∨
    (∃ k, k < (pySplitDot "x").length ∧
      (∃ t, "x" = joinDot ((pySplitDot "x").take (k + 1)) ++ t) ∧
      (get_property_by_path_exc (.vobj []) "x"
          = .ok (none, some ("Property '" ++ (pySplitDot "x").getD k "" ++ "' not found at path '"
              ++ joinDot ((pySplitDot "x").take (k + 1)) ++ "'"))
        ∨ ∃ n : Nat, get_property_by_path_exc (.vobj []) "x"
          = .ok (none, some ("Index " ++ toString n ++ " out of range at path '"
              ++ joinDot ((pySplitDot "x").take (k + 1)) ++ "'")))) ∨
    (∃ k, k < (pySplitDot "x").length ∧
      get_property_by_path_exc (.vobj []) "x"
        = .error ("invalid literal for int() with base 10: '"
            ++ (pySplitDot "x").getD k "" ++ "'")) :=
  path_navigator_total_amended (.vobj []) "x" (by decide)
